import Mathlib

/-!
Shallow embedding of the modal navigation / form-editing core of the
gyst-tui task manager (files `src/ui/mod.rs`, `src/ui/task_page.rs`,
`src/ui/bottombar.rs`).  Components whose source files are not part of
the provided sources (`App`, `TaskForm`, `AllTasksPage`,
`DeleteTaskPage`, `Settings`) are modelled from the specification and
are marked as such in their doc comments.  Key events are abstracted to
the logical action whose keybinding guard they match first in the
dispatch of `run_app` (guards are mutually exclusive for distinct
keybindings), plus raw character / backspace input.
-/

namespace Gyst

/-- Input modes, from `src/ui/mod.rs` (`enum InputMode`). -/
inductive InputMode where
  | Insert
  | Normal
  | Visual
  | Command
deriving DecidableEq, Repr

/-- Top-level pages, from `src/ui/mod.rs` (`enum UIPage`). -/
inductive UIPage where
  | AllTasks
  | NewTask
  | EditTask
  | DeleteTask
deriving DecidableEq, Repr

/-- Days of the week, for recurrence rules.  Modelled from the spec:
the `RecurrenceRule` weekday set of §3 (the `task_form.rs` source is
not among the provided files). -/
inductive Weekday where
  | mon | tue | wed | thu | fri | sat | sun
deriving DecidableEq, Repr

/-- A set of weekdays, duplicates collapsed (spec §3). -/
structure WeekdaySet where
  mon : Bool
  tue : Bool
  wed : Bool
  thu : Bool
  fri : Bool
  sat : Bool
  sun : Bool
deriving DecidableEq, Repr

def WeekdaySet.empty : WeekdaySet :=
  ⟨false, false, false, false, false, false, false⟩

def WeekdaySet.insert (s : WeekdaySet) : Weekday → WeekdaySet
  | .mon => { s with mon := true }
  | .tue => { s with tue := true }
  | .wed => { s with wed := true }
  | .thu => { s with thu := true }
  | .fri => { s with fri := true }
  | .sat => { s with sat := true }
  | .sun => { s with sun := true }

/-- Recurrence rule of a task.  Modelled from the spec §3:
`Never | Daily | Weekly | Monthly | Yearly` or an explicit non-empty
weekday set. -/
inductive RecurrenceRule where
  | never
  | daily
  | weekly
  | monthly
  | yearly
  | weekdays (days : WeekdaySet)
deriving DecidableEq, Repr

/-- Lower-case a string character-wise (case-insensitive matching). -/
def lowerStr (s : String) : String :=
  ⟨s.data.map Char.toLower⟩

/-- Strip leading and trailing whitespace (`str::trim`). -/
def trimStr (s : String) : String :=
  ⟨((s.data.dropWhile Char.isWhitespace).reverse.dropWhile Char.isWhitespace).reverse⟩

/-- Split a character list at every comma (`str::split(',')` over the
characters). -/
def splitComma : List Char → List (List Char)
  | [] => [[]]
  | c :: rest =>
    if c = ',' then [] :: splitComma rest
    else
      match splitComma rest with
      | [] => [[c]]
      | h :: t => (c :: h) :: t

/-- Modelled from the spec §4.4 step 3: recognise a single weekday
token, whitespace-trimmed and case-insensitive, accepting common
abbreviations and full names. -/
def weekdayOfToken (t : String) : Option Weekday :=
  let l := lowerStr (trimStr t)
  if l = "mon" ∨ l = "monday" then some .mon
  else if l = "tue" ∨ l = "tues" ∨ l = "tuesday" then some .tue
  else if l = "wed" ∨ l = "wednesday" then some .wed
  else if l = "thu" ∨ l = "thur" ∨ l = "thurs" ∨ l = "thursday" then some .thu
  else if l = "fri" ∨ l = "friday" then some .fri
  else if l = "sat" ∨ l = "saturday" then some .sat
  else if l = "sun" ∨ l = "sunday" then some .sun
  else none

/-- Modelled from the spec §4.4 step 3 (`task_form.rs` is not among the
provided sources): empty input defaults to `Never`; otherwise a
case-insensitive match against the five literal keywords; otherwise a
comma-separated, per-token whitespace-trimmed, case-insensitive weekday
list; `none` represents the `InvalidRecurrence` failure (any
unrecognized token, or an empty list). -/
def parseRecurrence (s : String) : Option RecurrenceRule :=
  if s = "" then some .never
  else
    let l := lowerStr s
    if l = "never" then some .never
    else if l = "daily" then some .daily
    else if l = "weekly" then some .weekly
    else if l = "monthly" then some .monthly
    else if l = "yearly" then some .yearly
    else
      let toks := (splitComma s.data).map String.mk
      if toks.isEmpty then none
      else
        match toks.mapM weekdayOfToken with
        | some days => some (.weekdays (days.foldl WeekdaySet.insert .empty))
        | none => none

/-- Due date of a task: a date-only or a date-time value, kept in its
validated textual form.  Modelled from the spec §3/§4.4 step 2. -/
inductive DueDate where
  | onDate (text : String)
  | onDateTime (text : String)
deriving DecidableEq, Repr

/-- The store-independent fields of a Task (spec §3): name, optional
due date, recurrence rule, group label, description, URL, completion
flag.  Modelled from the spec (the `Task` type lives outside the
provided sources). -/
structure TaskData where
  name : String
  due : Option DueDate
  recurrence : RecurrenceRule
  group : String
  description : String
  url : String
  completed : Bool
deriving DecidableEq, Repr

/-- A stored task: store-assigned identifier plus its data. -/
structure Task where
  id : Nat
  data : TaskData
deriving DecidableEq, Repr

/-- Read-only configuration (spec §6): the two accepted date patterns
are modelled as abstract recognisers together with their user-facing
hint strings; the delete-confirmation predicate of §4.5 is modelled as
a configuration function.  Modelled from the spec (`configuration.rs`
is not among the provided sources). -/
structure Settings where
  isDate : String → Bool
  isDateTime : String → Bool
  dateHint : String
  datetimeHint : String
  confirmPred : String → Bool

/-- Validation errors of the submission pipeline (spec §7). -/
inductive ValidationError where
  | missingName
  | invalidDate (hint : String)
  | invalidRecurrence
deriving DecidableEq, Repr

/-- Human-readable error text retained on the page (spec §4.4). -/
def ValidationError.toText : ValidationError → String
  | .missingName => "Name is required"
  | .invalidDate hint => "Invalid date, expected " ++ hint
  | .invalidRecurrence => "Invalid recurrence rule"

/-- The six raw-text fields of the form buffer (spec §3), mirroring
`TaskForm` of the missing `task_form.rs`.  Modelled from the spec. -/
structure TaskForm where
  name : String
  date : String
  repeats : String
  group : String
  description : String
  url : String
deriving DecidableEq, Repr

def TaskForm.default : TaskForm :=
  ⟨"", "", "", "", "", ""⟩

/-- Textual form of a recurrence rule, used to seed the repeats field
when editing.  Modelled from the spec §3 (comma-separated weekday
names in textual form). -/
def RecurrenceRule.toText : RecurrenceRule → String
  | .never => "Never"
  | .daily => "Daily"
  | .weekly => "Weekly"
  | .monthly => "Monthly"
  | .yearly => "Yearly"
  | .weekdays d =>
      let names :=
        (if d.mon then ["Mon"] else []) ++
        (if d.tue then ["Tue"] else []) ++
        (if d.wed then ["Wed"] else []) ++
        (if d.thu then ["Thu"] else []) ++
        (if d.fri then ["Fri"] else []) ++
        (if d.sat then ["Sat"] else []) ++
        (if d.sun then ["Sun"] else [])
      String.intercalate "," names

/-- Modelled from the spec §3/§4.1: a Form Buffer for Edit is seeded
from the stored Task's values, rendered back to raw text
(`TaskForm::from_task` of the missing `task_form.rs`). -/
def TaskForm.from_task (t : TaskData) : TaskForm where
  name := t.name
  date := match t.due with
    | none => ""
    | some (.onDate s) => s
    | some (.onDateTime s) => s
  repeats := t.recurrence.toText
  group := t.group
  description := t.description
  url := t.url

/-- Modelled from the spec §4.4 (`TaskForm::submit` of the missing
`task_form.rs`): name must be non-empty after trimming; a non-empty
date must match the date-only pattern first, then the date-time
pattern, the error naming both accepted formats; repeats parses per
`parseRecurrence`; group, description and url pass through verbatim. -/
def TaskForm.submit (f : TaskForm) (s : Settings) : Except ValidationError TaskData :=
  if trimStr f.name = "" then .error .missingName
  else
    let due? : Except ValidationError (Option DueDate) :=
      if f.date = "" then .ok none
      else if s.isDate f.date then .ok (some (.onDate f.date))
      else if s.isDateTime f.date then .ok (some (.onDateTime f.date))
      else .error (.invalidDate (s.dateHint ++ " or " ++ s.datetimeHint))
    match due? with
    | .error e => .error e
    | .ok due =>
      match parseRecurrence f.repeats with
      | none => .error .invalidRecurrence
      | some rec2 =>
        .ok { name := f.name, due := due, recurrence := rec2,
              group := f.group, description := f.description,
              url := f.url, completed := false }

/-- The application state behind the Task Store interface.  Modelled
from the spec §6 (`app.rs` is not among the provided sources): a list
of tasks, a counter for store-assigned identifiers, and the read-only
settings. -/
structure App where
  tasks : List Task
  nextId : Nat
  settings : Settings

/-- Modelled from the spec §6: `get_task(id) -> Task?`, lookup by
identifier, absent yields `none`. -/
def App.get_task (a : App) (id : Nat) : Option Task :=
  a.tasks.find? (fun t => decide (t.id = id))

/-- Modelled from the spec §6: `add_task(Task)` store-assigns the
identifier and appends. -/
def App.add_task (a : App) (d : TaskData) : App :=
  { a with tasks := a.tasks ++ [⟨a.nextId, d⟩], nextId := a.nextId + 1 }

/-- Modelled from the spec §6: `delete_task(id)` removes by
identifier (no-op if absent). -/
def App.delete_task (a : App) (id : Nat) : App :=
  { a with tasks := a.tasks.filter (fun t => decide (t.id ≠ id)) }

/-- The task form page, from `src/ui/task_page.rs` (`struct TaskPage`,
minus the rendering-only `app` handle, which is passed explicitly to
the operations that use it). -/
structure TaskPage where
  task_form : TaskForm
  input_mode : InputMode
  editing_task : Option Nat
  current_idx : Nat
  num_fields : Nat
  error : Option String
deriving DecidableEq, Repr

/-- `TaskPage::new` (`task_page.rs`). -/
def TaskPage.new : TaskPage where
  task_form := TaskForm.default
  input_mode := .Normal
  current_idx := 0
  error := none
  num_fields := 6
  editing_task := none

/-- `TaskPage::new_from_task` (`task_page.rs`): seeds the form from the
stored task looked up in the store; the source unwraps the lookup, so
an absent identifier is a panic, modelled as `none`. -/
def TaskPage.new_from_task (a : App) (task_id : Nat) : Option TaskPage :=
  (a.get_task task_id).map fun t =>
    { task_form := TaskForm.from_task t.data
      input_mode := .Normal
      current_idx := 0
      error := none
      num_fields := 6
      editing_task := some task_id }

/-- `TaskPage::next_field` (`task_page.rs`). -/
def TaskPage.next_field (p : TaskPage) : TaskPage :=
  if p.current_idx < p.num_fields - 1 then
    { p with current_idx := p.current_idx + 1 }
  else p

/-- `TaskPage::prev_field` (`task_page.rs`). -/
def TaskPage.prev_field (p : TaskPage) : TaskPage :=
  if p.current_idx > 0 then
    { p with current_idx := p.current_idx - 1 }
  else p

/-- `TaskPage::add_char` (`task_page.rs`): append a character to the
field selected by `current_idx`. -/
def TaskPage.add_char (p : TaskPage) (c : Char) : TaskPage :=
  let f := p.task_form
  match p.current_idx with
  | 0 => { p with task_form := { f with name := f.name.push c } }
  | 1 => { p with task_form := { f with date := f.date.push c } }
  | 2 => { p with task_form := { f with repeats := f.repeats.push c } }
  | 3 => { p with task_form := { f with group := f.group.push c } }
  | 4 => { p with task_form := { f with description := f.description.push c } }
  | 5 => { p with task_form := { f with url := f.url.push c } }
  | _ => p

/-- Drop the last character of a string (`String::pop`). -/
def strPop (s : String) : String :=
  ⟨s.data.dropLast⟩

/-- `TaskPage::remove_char` (`task_page.rs`): drop the last character
of the field selected by `current_idx`. -/
def TaskPage.remove_char (p : TaskPage) : TaskPage :=
  let f := p.task_form
  match p.current_idx with
  | 0 => { p with task_form := { f with name := strPop f.name } }
  | 1 => { p with task_form := { f with date := strPop f.date } }
  | 2 => { p with task_form := { f with repeats := strPop f.repeats } }
  | 3 => { p with task_form := { f with group := strPop f.group } }
  | 4 => { p with task_form := { f with description := strPop f.description } }
  | 5 => { p with task_form := { f with url := strPop f.url } }
  | _ => p

/-- `TaskPage::submit` (`task_page.rs`): run the form validation; on
success delete the edited identifier (if any) and then insert the
freshly built task, returning `true`; on failure record the error text
on the page and return `false`. -/
def TaskPage.submit (p : TaskPage) (a : App) : Bool × TaskPage × App :=
  match p.task_form.submit a.settings with
  | .ok new_task =>
    let a1 := match p.editing_task with
      | some task_id => a.delete_task task_id
      | none => a
    (true, p, a1.add_task new_task)
  | .error e => (false, { p with error := some e.toText }, a)

/-- The delete-confirmation page.  Modelled from the spec §4.5
(`delete_task_page.rs` is not among the provided sources): the target
identifier, its own small input buffer and its own input mode. -/
structure DeleteTaskPage where
  task_id : Nat
  input_buffer : String
  input_mode : InputMode
deriving DecidableEq, Repr

/-- Modelled from the spec §4.1: a fresh confirmation buffer and mode
`Normal` on entry. -/
def DeleteTaskPage.new (task_id : Nat) : DeleteTaskPage :=
  ⟨task_id, "", .Normal⟩

def DeleteTaskPage.add_char (d : DeleteTaskPage) (c : Char) : DeleteTaskPage :=
  { d with input_buffer := d.input_buffer.push c }

def DeleteTaskPage.remove_char (d : DeleteTaskPage) : DeleteTaskPage :=
  { d with input_buffer := strPop d.input_buffer }

/-- Modelled from the spec §4.5: submit evaluates the confirmation
predicate over the buffer contents; true deletes the target task id
from the store and reports success, false reports failure with no side
effect. -/
def DeleteTaskPage.submit (d : DeleteTaskPage) (a : App) : Bool × App :=
  if a.settings.confirmPred d.input_buffer then
    (true, a.delete_task d.task_id)
  else
    (false, a)

/-- The task-list page, reduced to the state the event loop reads and
writes.  Modelled from the spec §2/§4.1 (`all_tasks_page.rs` is not
among the provided sources): the selected task identifier, the
hide-completed toggle and a group cursor. -/
structure AllTasksPage where
  current_id : Option Nat
  hide_completed : Bool
  group_idx : Nat
deriving DecidableEq, Repr

/-- Modelled from the spec: selection moves forward through the stored
tasks, clamped at the end; with no selection it picks the first task. -/
def AllTasksPage.next (p : AllTasksPage) (a : App) : AllTasksPage :=
  match p.current_id with
  | none => { p with current_id := a.tasks.head?.map Task.id }
  | some i =>
    match a.tasks.findIdx? (fun t => decide (t.id = i)) with
    | none => { p with current_id := a.tasks.head?.map Task.id }
    | some k =>
      match a.tasks.get? (k + 1) with
      | some t => { p with current_id := some t.id }
      | none => p

/-- Modelled from the spec: selection moves backward through the stored
tasks, clamped at the start. -/
def AllTasksPage.prev (p : AllTasksPage) (a : App) : AllTasksPage :=
  match p.current_id with
  | none => { p with current_id := a.tasks.head?.map Task.id }
  | some i =>
    match a.tasks.findIdx? (fun t => decide (t.id = i)) with
    | none => { p with current_id := a.tasks.head?.map Task.id }
    | some k =>
      match a.tasks.get? (k - 1) with
      | some t => { p with current_id := some t.id }
      | none => p

/-- Modelled from the spec: toggle the completion flag of the selected
task in the store. -/
def AllTasksPage.toggle_selected (p : AllTasksPage) (a : App) : App :=
  match p.current_id with
  | none => a
  | some i =>
    { a with tasks := a.tasks.map fun t =>
        if t.id = i then { t with data := { t.data with completed := !t.data.completed } }
        else t }

def AllTasksPage.toggle_hidden (p : AllTasksPage) : AllTasksPage :=
  { p with hide_completed := !p.hide_completed }

def AllTasksPage.next_group (p : AllTasksPage) : AllTasksPage :=
  { p with group_idx := p.group_idx + 1 }

def AllTasksPage.prev_group (p : AllTasksPage) : AllTasksPage :=
  { p with group_idx := p.group_idx - 1 }

/-- Modelled from the spec: group bookkeeping after a store mutation;
no observable field of this reduced model is affected. -/
def AllTasksPage.ensure_group_exists (p : AllTasksPage) : AllTasksPage := p

/-- Modelled from the spec: after a store mutation the selection is
repaired to point at an existing task (or cleared via the first task
when none matches). -/
def AllTasksPage.ensure_task_exists (p : AllTasksPage) (a : App) : AllTasksPage :=
  match p.current_id with
  | some i =>
    if (a.get_task i).isSome then p
    else { p with current_id := a.tasks.head?.map Task.id }
  | none => { p with current_id := a.tasks.head?.map Task.id }

/-- One key event, abstracted to the logical action its key code
matches in the guards of `run_app` (`src/ui/mod.rs`), or raw character
/ backspace input matching no action guard, or any other key. -/
inductive AppEvent where
  | quit
  | down
  | up
  | completeTask
  | toggleCompleted
  | deleteTask
  | openLink
  | newTask
  | editTask
  | nextGroup
  | prevGroup
  | enterInsert
  | enterNormal
  | goBack
  | save
  | charInput (c : Char)
  | backspace
  | other
deriving DecidableEq, Repr

/-- The whole mutable state of `run_app` (`src/ui/mod.rs`): the shared
application state, the three page objects (the delete page optional)
and the current page; `done` records that the loop has been left via
the quit action. -/
structure UIState where
  app : App
  allTasksPage : AllTasksPage
  taskPage : TaskPage
  deleteTaskPage : Option DeleteTaskPage
  currentPage : UIPage
  done : Bool

/-- The initial state of `run_app`: `AllTasks` page, a fresh task page,
no delete page.  The initial selection of the task list is modelled
from the spec as the first stored task. -/
def initState (a : App) : UIState where
  app := a
  allTasksPage := ⟨a.tasks.head?.map Task.id, false, 0⟩
  taskPage := TaskPage.new
  deleteTaskPage := none
  currentPage := .AllTasks
  done := false

/-- The save-changes handler on the `NewTask`/`EditTask` pages
(`mod.rs` lines 207-213 and 220-226): submit; on success repair the
task-list bookkeeping and return to `AllTasks`; on failure stay. -/
def handleTaskSave (s : UIState) : UIState :=
  let r := s.taskPage.submit s.app
  if r.1 then
    { s with app := r.2.2
             taskPage := r.2.1
             allTasksPage :=
               (s.allTasksPage.ensure_group_exists).ensure_task_exists r.2.2
             currentPage := .AllTasks }
  else
    { s with app := r.2.2, taskPage := r.2.1 }

/-- The save-changes handler on the `DeleteTask` page (`mod.rs` lines
156-163 and 170-177): submit; on success repair the task-list
bookkeeping, return to `AllTasks` and drop the delete page; on failure
stay. -/
def handleDeleteSave (s : UIState) (d : DeleteTaskPage) : UIState :=
  let r := d.submit s.app
  if r.1 then
    { s with app := r.2
             allTasksPage :=
               (s.allTasksPage.ensure_group_exists).ensure_task_exists r.2
             currentPage := .AllTasks
             deleteTaskPage := none }
  else
    { s with app := r.2 }

/-- After a selection movement landing on `atp`, re-seed the task page
from the selected stored task (`mod.rs` lines 103-114); the `unwrap()`
of the lookup is `none` on an absent identifier. -/
def seedFromSelection (s : UIState) (atp : AllTasksPage) : Option UIState :=
  match atp.current_id with
  | some task_id =>
    match TaskPage.new_from_task s.app task_id with
    | some tp => some { s with allTasksPage := atp, taskPage := tp }
    | none => none
  | none => some { s with allTasksPage := atp }

/-- Event dispatch on the `AllTasks` page (`mod.rs` lines 101-144). -/
def stepAllTasks (s : UIState) (e : AppEvent) : Option UIState :=
  match e with
  | .quit => some { s with done := true }
  | .down => seedFromSelection s (s.allTasksPage.next s.app)
  | .up => seedFromSelection s (s.allTasksPage.prev s.app)
  | .completeTask => some { s with app := s.allTasksPage.toggle_selected s.app }
  | .toggleCompleted => some { s with allTasksPage := s.allTasksPage.toggle_hidden }
  | .deleteTask =>
    match s.allTasksPage.current_id with
    | some task_id =>
      some { s with deleteTaskPage := some (DeleteTaskPage.new task_id)
                    currentPage := .DeleteTask }
    | none => some s
  | .openLink => some s
  | .newTask => some { s with currentPage := .NewTask, taskPage := TaskPage.new }
  | .editTask =>
    if s.allTasksPage.current_id.isSome then
      some { s with currentPage := .EditTask }
    else some s
  | .nextGroup => some { s with allTasksPage := s.allTasksPage.next_group }
  | .prevGroup => some { s with allTasksPage := s.allTasksPage.prev_group }
  | _ => some s

/-- Event dispatch on the `DeleteTask` page for a present delete page
object `d` in input mode `m` (`mod.rs` lines 147-194). -/
def stepDeleteMode (s : UIState) (d : DeleteTaskPage) (m : InputMode)
    (e : AppEvent) : Option UIState :=
  match m with
  | .Normal =>
    match e with
    | .quit => some { s with done := true }
    | .enterInsert =>
      some { s with deleteTaskPage := some { d with input_mode := .Insert } }
    | .goBack => some { s with currentPage := .AllTasks }
    | .save => some (handleDeleteSave s d)
    | _ => some s
  | .Insert =>
    match e with
    | .enterNormal =>
      some { s with deleteTaskPage := some { d with input_mode := .Normal } }
    | .save => some (handleDeleteSave s d)
    | .charInput c => some { s with deleteTaskPage := some (d.add_char c) }
    | .backspace => some { s with deleteTaskPage := some d.remove_char }
    | _ => some s
  | .Visual =>
    match e with
    | .enterNormal =>
      some { s with deleteTaskPage := some { d with input_mode := .Normal } }
    | _ => some s
  | .Command =>
    match e with
    | .enterNormal =>
      some { s with deleteTaskPage := some { d with input_mode := .Normal } }
    | _ => some s

/-- Event dispatch on the `DeleteTask` page for a present delete page
object (`mod.rs` lines 147-194). -/
def stepDelete (s : UIState) (d : DeleteTaskPage) (e : AppEvent) : Option UIState :=
  stepDeleteMode s d d.input_mode e

/-- Event dispatch on the `NewTask`/`EditTask` pages when the task
page's input mode is `m` (`mod.rs` lines 196-243). -/
def stepFormMode (s : UIState) (m : InputMode) (e : AppEvent) : Option UIState :=
  match m with
  | .Normal =>
    match e with
    | .down => some { s with taskPage := s.taskPage.next_field }
    | .up => some { s with taskPage := s.taskPage.prev_field }
    | .quit => some { s with done := true }
    | .enterInsert =>
      some { s with taskPage := { s.taskPage with input_mode := .Insert } }
    | .goBack => some { s with currentPage := .AllTasks }
    | .save => some (handleTaskSave s)
    | _ => some s
  | .Insert =>
    match e with
    | .enterNormal =>
      some { s with taskPage := { s.taskPage with input_mode := .Normal } }
    | .save => some (handleTaskSave s)
    | .charInput c => some { s with taskPage := s.taskPage.add_char c }
    | .backspace => some { s with taskPage := s.taskPage.remove_char }
    | _ => some s
  | .Visual =>
    match e with
    | .enterNormal =>
      some { s with taskPage := { s.taskPage with input_mode := .Normal } }
    | _ => some s
  | .Command =>
    match e with
    | .enterNormal =>
      some { s with taskPage := { s.taskPage with input_mode := .Normal } }
    | _ => some s

/-- Event dispatch on the `NewTask`/`EditTask` pages (`mod.rs` lines
196-243). -/
def stepForm (s : UIState) (e : AppEvent) : Option UIState :=
  stepFormMode s s.taskPage.input_mode e

/-- One iteration of the event-dispatch of `run_app` (`src/ui/mod.rs`
lines 98-245).  `none` models a panic: the `unwrap()` of the delete
page option on the `DeleteTask` page, or the `unwrap()` of the task
lookup inside `TaskPage::new_from_task`.  After the loop has been left
(`done`), every event is a no-op. -/
def step (s : UIState) (e : AppEvent) : Option UIState :=
  if s.done then some s
  else
    match s.currentPage with
    | .AllTasks => stepAllTasks s e
    | .DeleteTask =>
      match s.deleteTaskPage with
      | none => none
      | some d => stepDelete s d e
    | .NewTask => stepForm s e
    | .EditTask => stepForm s e

/-- Run a list of events from a state, propagating panics. -/
def run (s : UIState) : List AppEvent → Option UIState
  | [] => some s
  | e :: es =>
    match step s e with
    | some s1 => run s1 es
    | none => none

/-- The states the event loop can reach from its initial state. -/
inductive Reachable (a : App) : UIState → Prop where
  | init : Reachable a (initState a)
  | next {s s1 : UIState} {e : AppEvent} :
      Reachable a s → step s e = some s1 → Reachable a s1

deriving instance DecidableEq for Except

/-! Concrete fixtures used by witnesses and counterexamples. -/

/-- A concrete configuration: no date string is accepted (unused by the
fixtures, whose date fields are empty) and the delete confirmation is
confirm-by-keypress (spec §4.5 allows a trivial predicate). -/
def settings0 : Settings :=
  ⟨fun _ => false, fun _ => false, "YYYY-MM-DD", "YYYY-MM-DD HH:MM", fun _ => true⟩

def dataA : TaskData := ⟨"alpha", none, .never, "", "", "", false⟩

def dataB : TaskData := ⟨"b", none, .never, "", "", "", false⟩

/-- A store holding the single task `dataA` under identifier 7. -/
def appA : App := ⟨[⟨7, dataA⟩], 8, settings0⟩

/-- A store holding `dataA` under identifier 1 and `dataB` under
identifier 2. -/
def appAB : App := ⟨[⟨1, dataA⟩, ⟨2, dataB⟩], 3, settings0⟩

/-- An empty store. -/
def appE : App := ⟨[], 0, settings0⟩

/-- C6: for every task form page (`num_fields = 6`) whose focus index
is in `[0, 5]`, `next_field` and `prev_field` keep the index in
`[0, 5]`: `next_field` increments below the top and is the identity at
index 5, `prev_field` decrements above 0 and is the identity at index
0; the identity equations make repeated boundary calls idempotent
no-ops (no wraparound). -/
theorem field_navigation_clamped (p : TaskPage)
    (h6 : p.num_fields = 6) (h : p.current_idx ≤ 5) :
    p.next_field.current_idx ≤ 5 ∧
    p.prev_field.current_idx ≤ 5 ∧
    (p.current_idx < 5 → p.next_field.current_idx = p.current_idx + 1) ∧
    (p.current_idx = 5 → p.next_field = p) ∧
    (0 < p.current_idx → p.prev_field.current_idx = p.current_idx - 1) ∧
    (p.current_idx = 0 → p.prev_field = p) := by
  obtain ⟨form, mode, et, idx, nf, err⟩ := p
  simp only at h6
  subst h6
  simp only [TaskPage.next_field, TaskPage.prev_field] at *
  refine ⟨?_, ?_, ?_, ?_, ?_, ?_⟩ <;> intros <;> split <;> simp_all <;> omega

theorem field_navigation_clamped_witness :
    TaskPage.new.next_field.current_idx ≤ 5 ∧
    TaskPage.new.prev_field.current_idx ≤ 5 ∧
    (TaskPage.new.current_idx < 5 →
      TaskPage.new.next_field.current_idx = TaskPage.new.current_idx + 1) ∧
    (TaskPage.new.current_idx = 5 → TaskPage.new.next_field = TaskPage.new) ∧
    (0 < TaskPage.new.current_idx →
      TaskPage.new.prev_field.current_idx = TaskPage.new.current_idx - 1) ∧
    (TaskPage.new.current_idx = 0 → TaskPage.new.prev_field = TaskPage.new) :=
  field_navigation_clamped TaskPage.new rfl (by decide)

/-- C9: the repeats parser maps empty input to `Never`; any input whose
lower-casing is one of the five literal keywords to that rule
(case-insensitive match); the comma-separated, per-token
whitespace-trimmed, case-insensitive list `"Mon,tue , WED"` to the
weekday set `{Mon, Tue, Wed}`; and inputs with an unrecognized token
(including an empty token) to the `InvalidRecurrence` failure,
modelled as `none`. -/
theorem parse_recurrence_spec :
    parseRecurrence "" = some .never ∧
    (∀ s, lowerStr s = "never" → parseRecurrence s = some .never) ∧
    (∀ s, lowerStr s = "daily" → parseRecurrence s = some .daily) ∧
    (∀ s, lowerStr s = "weekly" → parseRecurrence s = some .weekly) ∧
    (∀ s, lowerStr s = "monthly" → parseRecurrence s = some .monthly) ∧
    (∀ s, lowerStr s = "yearly" → parseRecurrence s = some .yearly) ∧
    parseRecurrence "Mon,tue , WED" =
      some (.weekdays ⟨true, true, true, false, false, false, false⟩) ∧
    parseRecurrence "xyz" = none ∧
    parseRecurrence "Mon,xyz" = none ∧
    parseRecurrence "mon,,tue" = none := by
  refine ⟨by decide, ?_, ?_, ?_, ?_, ?_, by decide, by decide, by decide, by decide⟩ <;>
    (intro s h
     have hs : s ≠ "" := by
       rintro rfl
       exact absurd h (by decide)
     simp [parseRecurrence, hs, h])

theorem parse_recurrence_spec_witness :
    parseRecurrence "DAILY" = some .daily :=
  parse_recurrence_spec.2.2.1 "DAILY" (by decide)

/-- C2: from a `NewTask`/`EditTask` page in `Normal` or `Insert` mode
whose form buffer has an empty-after-trimming name, the save action's
submission fails with `MissingName`; the resulting state keeps the
store, the page, the form buffer, the input mode and the focus index
unchanged, recording only the inline error text on the page. -/
theorem missing_name_submission (s : UIState)
    (hdone : s.done = false)
    (hpage : s.currentPage = .NewTask ∨ s.currentPage = .EditTask)
    (hmode : s.taskPage.input_mode = .Normal ∨ s.taskPage.input_mode = .Insert)
    (hname : trimStr s.taskPage.task_form.name = "") :
    s.taskPage.task_form.submit s.app.settings = .error .missingName ∧
    step s .save =
      some { s with taskPage :=
        { s.taskPage with error := some ValidationError.missingName.toText } } := by
  have hsub : s.taskPage.task_form.submit s.app.settings = .error .missingName := by
    simp [TaskForm.submit, hname]
  refine ⟨hsub, ?_⟩
  have hfail : s.taskPage.submit s.app =
      (false,
       { s.taskPage with error := some ValidationError.missingName.toText },
       s.app) := by
    simp [TaskPage.submit, hsub]
  rcases hpage with hpage | hpage <;>
    rcases hmode with hmode | hmode <;>
      simp [step, stepForm, stepFormMode, hdone, hpage, hmode, handleTaskSave, hfail]

def stateMissingName : UIState :=
  { initState appE with
      currentPage := .NewTask
      taskPage := { TaskPage.new with task_form := { TaskForm.default with name := "  " } } }

theorem missing_name_submission_witness :
    stateMissingName.taskPage.task_form.submit stateMissingName.app.settings =
      .error .missingName ∧
    step stateMissingName .save =
      some { stateMissingName with taskPage :=
        { stateMissingName.taskPage with
            error := some ValidationError.missingName.toText } } :=
  missing_name_submission stateMissingName rfl (Or.inl rfl) (Or.inl rfl) (by decide)

/-- C1 (amended): a successful submission on the Edit page with target
identifier `t` commits as delete of `t` followed by insert of the
freshly built task under the next store-assigned identifier; in a
well-formed store the result holds no task with identifier `t`, and if
no other stored task's fields equal the validated form values then
exactly one task of the resulting store carries them. -/
theorem edit_submit_delete_then_insert (p : TaskPage) (a : App) (t : Nat) (d : TaskData)
    (hedit : p.editing_task = some t)
    (hsub : p.task_form.submit a.settings = .ok d)
    (ht : t < a.nextId)
    (hnd : ∀ x ∈ a.tasks, x.id ≠ t → x.data ≠ d) :
    (p.submit a).1 = true ∧
    (p.submit a).2.2 = (a.delete_task t).add_task d ∧
    (∀ x ∈ (p.submit a).2.2.tasks, x.id ≠ t) ∧
    ((p.submit a).2.2.tasks.filter (fun x => decide (x.data = d))).length = 1 := by
  have hres : p.submit a = (true, p, (a.delete_task t).add_task d) := by
    simp [TaskPage.submit, hsub, hedit]
  rw [hres]
  have hkept : ∀ x ∈ a.tasks.filter (fun x => decide (x.id ≠ t)), x.data ≠ d := by
    intro x hx
    rcases List.mem_filter.mp hx with ⟨hmem, hne⟩
    exact hnd x hmem (by simpa using hne)
  refine ⟨rfl, rfl, ?_, ?_⟩
  · intro x hx
    simp only [App.add_task, App.delete_task] at hx
    rcases List.mem_append.mp hx with hx | hx
    · simpa using (List.mem_filter.mp hx).2
    · simp only [List.mem_singleton] at hx
      subst hx
      simpa using (by omega : a.nextId ≠ t)
  · simp only [App.add_task, App.delete_task, List.filter_append]
    have hnil : (a.tasks.filter (fun x => decide (x.id ≠ t))).filter
        (fun x => decide (x.data = d)) = [] := by
      apply List.filter_eq_nil_iff.mpr
      intro x hx
      simpa using hkept x hx
    rw [hnil]
    simp

/-- An edit page targeting identifier 7 whose form validates to
`dataB`. -/
def pageEditB7 : TaskPage :=
  { task_form := ⟨"b", "", "", "", "", ""⟩, input_mode := .Normal,
    editing_task := some 7, current_idx := 0, num_fields := 6, error := none }

theorem edit_submit_delete_then_insert_witness :
    (pageEditB7.submit appA).1 = true ∧
    (pageEditB7.submit appA).2.2 = (appA.delete_task 7).add_task dataB ∧
    (∀ x ∈ (pageEditB7.submit appA).2.2.tasks, x.id ≠ 7) ∧
    ((pageEditB7.submit appA).2.2.tasks.filter
      (fun x => decide (x.data = dataB))).length = 1 :=
  edit_submit_delete_then_insert pageEditB7 appA 7 dataB rfl (by decide)
    (by decide) (by decide)

/-- An edit page targeting identifier 1 of `appAB` whose form
validates to `dataB`, the data already stored under identifier 2. -/
def pageEditB1 : TaskPage :=
  { task_form := ⟨"b", "", "", "", "", ""⟩, input_mode := .Normal,
    editing_task := some 1, current_idx := 0, num_fields := 6, error := none }

/-- C1 is refuted as stated: a successful Edit submission into a store
already holding another task with the very field values leaves two
tasks whose fields equal the validated form values, not exactly one. -/
theorem edit_submit_duplicate_counterexample :
    pageEditB1.task_form.submit appAB.settings = .ok dataB ∧
    pageEditB1.editing_task = some 1 ∧
    (pageEditB1.submit appAB).1 = true ∧
    (pageEditB1.submit appAB).2.2.tasks = [⟨2, dataB⟩, ⟨3, dataB⟩] ∧
    ((pageEditB1.submit appAB).2.2.tasks.filter
      (fun x => decide (x.data = dataB))).length = 2 := by decide

/-- C3 is refuted as stated: from a store holding only task 7
(`dataA`), the trace select (down), open `NewTask`, go back, then fire
the edit action leaves the `EditTask` page active with the fresh empty
form buffer of the `NewTask` page and no edit target, not a buffer
seeded from the stored task at the moment the edit action fired. -/
theorem edit_entry_seeding_counterexample :
    ((run (initState appA) [.down, .newTask, .goBack, .editTask]).map
      (fun s => (s.currentPage, s.taskPage.task_form, s.taskPage.editing_task))) =
      some (.EditTask, TaskForm.default, none) ∧
    (appA.get_task 7).map (fun t => TaskForm.from_task t.data) =
      some (TaskForm.from_task dataA) ∧
    TaskForm.from_task dataA ≠ TaskForm.default := by decide

theorem seedFromSelection_frame {s : UIState} {atp : AllTasksPage} {s1 : UIState}
    (h : seedFromSelection s atp = some s1) :
    s1.currentPage = s.currentPage ∧
    s1.deleteTaskPage = s.deleteTaskPage ∧
    s1.done = s.done ∧
    s1.app = s.app ∧
    (s1.taskPage = s.taskPage ∨ s1.taskPage.input_mode = .Normal) := by
  rcases hc : atp.current_id with _ | t <;>
    simp only [seedFromSelection, hc] at h
  · cases h
    exact ⟨rfl, rfl, rfl, rfl, Or.inl rfl⟩
  · rcases hn : TaskPage.new_from_task s.app t with _ | tp <;>
      simp only [hn] at h
    · cases h
    · cases h
      refine ⟨rfl, rfl, rfl, rfl, Or.inr ?_⟩
      obtain ⟨t0, hget, htp⟩ := Option.map_eq_some'.mp hn
      rw [← htp]

theorem seedFromSelection_seeds {s : UIState} {atp : AllTasksPage} {s1 : UIState}
    {tid : Nat}
    (h : seedFromSelection s atp = some s1)
    (h2 : s1.allTasksPage.current_id = some tid) :
    TaskPage.new_from_task s.app tid = some s1.taskPage := by
  rcases hc : atp.current_id with _ | t <;>
    simp only [seedFromSelection, hc] at h
  · cases h
    simp_all
  · rcases hn : TaskPage.new_from_task s.app t with _ | tp <;>
      simp only [hn] at h
    · cases h
    · cases h
      simp only at h2
      rw [hc] at h2
      cases h2
      simpa using hn

/-- C3 (amended): the form buffer is seeded from the stored task's
values when the selection moves (the up/down handlers rebuild the task
page from the store as it is at that moment); the edit action itself
performs no seeding and reuses the task page unchanged. -/
theorem edit_entry_seeding (s : UIState) (hdone : s.done = false)
    (hpage : s.currentPage = .AllTasks) :
    (∀ s1, step s .editTask = some s1 → s1.taskPage = s.taskPage) ∧
    (∀ s1 tid, step s .down = some s1 → s1.allTasksPage.current_id = some tid →
      TaskPage.new_from_task s.app tid = some s1.taskPage) ∧
    (∀ s1 tid, step s .up = some s1 → s1.allTasksPage.current_id = some tid →
      TaskPage.new_from_task s.app tid = some s1.taskPage) := by
  refine ⟨?_, ?_, ?_⟩
  · intro s1 h1
    simp only [step, stepAllTasks, hdone, hpage, Bool.false_eq_true, if_false] at h1
    split at h1 <;> (cases h1; rfl)
  all_goals
    intro s1 tid h1 h2
    simp only [step, stepAllTasks, hdone, hpage, Bool.false_eq_true, if_false] at h1
    exact seedFromSelection_seeds h1 h2

def stateEditA : UIState :=
  { initState appA with currentPage := UIPage.EditTask }

theorem edit_entry_seeding_witness :
    stateEditA.taskPage = (initState appA).taskPage :=
  (edit_entry_seeding (initState appA) rfl rfl).1 stateEditA rfl

/-- C4 is refuted as stated: from an empty store, opening `NewTask`,
entering Insert mode, typing a name and saving succeeds (the page
returns to `AllTasks` and the task is stored), yet the task page's
input mode is still `Insert` afterwards, not `Normal`. -/
theorem save_insert_mode_counterexample :
    ((run (initState appE) [.newTask, .enterInsert, .charInput 'x', .save]).map
      (fun s => (s.currentPage, s.taskPage.input_mode, s.app.tasks.map Task.data))) =
      some (.AllTasks, .Insert, [⟨"x", none, .never, "", "", "", false⟩]) := by decide

/-- C4 (amended): a successful save from Insert mode transitions the
page to `AllTasks` but leaves the task page, in particular its input
mode, unchanged: the mode stays `Insert` and returns to `Normal` only
via the enter-normal action or when a fresh task page is built. -/
theorem save_insert_mode (s : UIState) (hdone : s.done = false)
    (hpage : s.currentPage = .NewTask ∨ s.currentPage = .EditTask)
    (hmode : s.taskPage.input_mode = .Insert)
    (hok : (s.taskPage.submit s.app).1 = true) :
    step s .save = some (handleTaskSave s) ∧
    (handleTaskSave s).currentPage = .AllTasks ∧
    (handleTaskSave s).taskPage = s.taskPage ∧
    (handleTaskSave s).taskPage.input_mode = .Insert := by
  have h21 : (s.taskPage.submit s.app).2.1 = s.taskPage := by
    cases h : s.taskPage.task_form.submit s.app.settings with
    | error e =>
      rw [TaskPage.submit] at hok
      simp [h] at hok
    | ok d =>
      rw [TaskPage.submit]
      simp [h]
  have hstep : step s .save = some (handleTaskSave s) := by
    rcases hpage with h | h <;>
      simp [step, stepForm, stepFormMode, hdone, h, hmode]
  have hh : handleTaskSave s =
      { s with app := (s.taskPage.submit s.app).2.2
               taskPage := s.taskPage
               allTasksPage :=
                 (s.allTasksPage.ensure_group_exists).ensure_task_exists
                   (s.taskPage.submit s.app).2.2
               currentPage := .AllTasks } := by
    rw [handleTaskSave]
    simp [hok, h21]
  exact ⟨hstep, by rw [hh], by rw [hh], by rw [hh]; exact hmode⟩

def stateInsertX : UIState :=
  { initState appE with
      currentPage := .NewTask
      taskPage := { TaskPage.new with
        input_mode := .Insert
        task_form := { TaskForm.default with name := "x" } } }

theorem save_insert_mode_witness :
    step stateInsertX .save = some (handleTaskSave stateInsertX) ∧
    (handleTaskSave stateInsertX).currentPage = .AllTasks ∧
    (handleTaskSave stateInsertX).taskPage = stateInsertX.taskPage ∧
    (handleTaskSave stateInsertX).taskPage.input_mode = .Insert :=
  save_insert_mode stateInsertX rfl (Or.inl rfl) rfl (by decide)

/-- C5 is refuted in its buffer-discarding part: selecting task 7,
editing it, typing an extra character and going back leaves the store
byte-for-byte unchanged and returns to `AllTasks`, but the form buffer
survives with the modified text and is reused when the edit action
fires again. -/
theorem go_back_discard_counterexample :
    ((run (initState appA)
        [.down, .editTask, .enterInsert, .charInput 'x', .enterNormal, .goBack]).map
      (fun s => (s.currentPage, s.app.tasks, s.taskPage.task_form.name))) =
      some (.AllTasks, [⟨7, dataA⟩], "alphax") ∧
    ((run (initState appA)
        [.down, .editTask, .enterInsert, .charInput 'x', .enterNormal, .goBack,
         .editTask]).map
      (fun s => (s.currentPage, s.taskPage.task_form.name))) =
      some (.EditTask, "alphax") ∧
    dataA.name = "alpha" := by decide

/-- C5 (amended): the go-back action on the `NewTask`/`EditTask` pages
transitions to `AllTasks` and changes nothing else: the store is left
unchanged (so an untouched edited task stays byte-for-byte intact),
and the form buffer is retained in memory rather than discarded. -/
theorem go_back_retains (s : UIState) (hdone : s.done = false)
    (hpage : s.currentPage = .NewTask ∨ s.currentPage = .EditTask)
    (hmode : s.taskPage.input_mode = .Normal) :
    step s .goBack = some { s with currentPage := .AllTasks } := by
  rcases hpage with h | h <;>
    simp [step, stepForm, stepFormMode, hdone, h, hmode]

theorem go_back_retains_witness :
    step stateEditA .goBack = some { stateEditA with currentPage := .AllTasks } :=
  go_back_retains stateEditA rfl (Or.inr rfl) rfl

/-- C7: on the `DeleteTask` page (in either of its live modes) the
save/confirm action dispatches on the confirmation predicate: when it
holds, exactly the tasks carrying the target identifier are removed,
the page returns to `AllTasks` and the delete page is dropped; when it
fails, the store and the page are untouched; the go-back action (in
`Normal` mode, where it is active) returns to `AllTasks` with the
store unchanged and no deletion. -/
theorem delete_page_actions (s : UIState) (d : DeleteTaskPage)
    (hdone : s.done = false)
    (hpage : s.currentPage = .DeleteTask)
    (hdtp : s.deleteTaskPage = some d)
    (hmode : d.input_mode = .Normal ∨ d.input_mode = .Insert) :
    (s.app.settings.confirmPred d.input_buffer = true →
      step s .save = some (handleDeleteSave s d) ∧
      (handleDeleteSave s d).app.tasks =
        s.app.tasks.filter (fun x => decide (x.id ≠ d.task_id)) ∧
      (handleDeleteSave s d).currentPage = .AllTasks ∧
      (handleDeleteSave s d).deleteTaskPage = none) ∧
    (s.app.settings.confirmPred d.input_buffer = false →
      step s .save = some (handleDeleteSave s d) ∧
      (handleDeleteSave s d).app = s.app ∧
      (handleDeleteSave s d).currentPage = .DeleteTask ∧
      (handleDeleteSave s d).deleteTaskPage = some d) ∧
    (d.input_mode = .Normal →
      step s .goBack = some { s with currentPage := .AllTasks }) := by
  have hstep : step s .save = some (handleDeleteSave s d) := by
    rcases hmode with hm | hm <;>
      simp [step, stepDelete, stepDeleteMode, hdone, hpage, hdtp, hm]
  refine ⟨?_, ?_, ?_⟩
  · intro hc
    have hsubmit : d.submit s.app = (true, s.app.delete_task d.task_id) := by
      simp [DeleteTaskPage.submit, hc]
    refine ⟨hstep, ?_, ?_, ?_⟩ <;>
      simp [handleDeleteSave, hsubmit, App.delete_task]
  · intro hc
    have hsubmit : d.submit s.app = (false, s.app) := by
      simp [DeleteTaskPage.submit, hc]
    refine ⟨hstep, ?_, ?_, ?_⟩ <;>
      simp [handleDeleteSave, hsubmit, hpage, hdtp]
  · intro hm
    simp [step, stepDelete, stepDeleteMode, hdone, hpage, hdtp, hm]

def stateDelA : UIState :=
  { initState appA with
      currentPage := .DeleteTask
      deleteTaskPage := some (DeleteTaskPage.new 7) }

theorem delete_page_actions_witness :
    step stateDelA .save = some (handleDeleteSave stateDelA (DeleteTaskPage.new 7)) ∧
    (handleDeleteSave stateDelA (DeleteTaskPage.new 7)).app.tasks =
      stateDelA.app.tasks.filter
        (fun x => decide (x.id ≠ (DeleteTaskPage.new 7).task_id)) ∧
    (handleDeleteSave stateDelA (DeleteTaskPage.new 7)).currentPage = .AllTasks ∧
    (handleDeleteSave stateDelA (DeleteTaskPage.new 7)).deleteTaskPage = none :=
  (delete_page_actions stateDelA (DeleteTaskPage.new 7) rfl rfl rfl
    (Or.inl rfl)).1 rfl

/-! Helper lemmas about the save handlers, shared by the invariant
proofs below. -/

theorem submit_keeps_mode (p : TaskPage) (a : App) :
    (p.submit a).2.1.input_mode = p.input_mode := by
  rcases h : p.task_form.submit a.settings with e | d <;>
    simp [TaskPage.submit, h]

theorem handleTaskSave_frame (s : UIState) :
    ((handleTaskSave s).currentPage = .AllTasks ∨
     (handleTaskSave s).currentPage = s.currentPage) ∧
    (handleTaskSave s).deleteTaskPage = s.deleteTaskPage ∧
    (handleTaskSave s).taskPage.input_mode = s.taskPage.input_mode := by
  rw [handleTaskSave]
  split
  · exact ⟨Or.inl rfl, rfl, submit_keeps_mode s.taskPage s.app⟩
  · exact ⟨Or.inr rfl, rfl, submit_keeps_mode s.taskPage s.app⟩

theorem handleDeleteSave_frame (s : UIState) (d : DeleteTaskPage) :
    (((handleDeleteSave s d).currentPage = .AllTasks ∧
      (handleDeleteSave s d).deleteTaskPage = none) ∨
     ((handleDeleteSave s d).currentPage = s.currentPage ∧
      (handleDeleteSave s d).deleteTaskPage = s.deleteTaskPage)) ∧
    (handleDeleteSave s d).taskPage = s.taskPage := by
  rw [handleDeleteSave]
  split
  · exact ⟨Or.inl ⟨rfl, rfl⟩, rfl⟩
  · exact ⟨Or.inr ⟨rfl, rfl⟩, rfl⟩

theorem next_field_keeps_mode (p : TaskPage) :
    p.next_field.input_mode = p.input_mode := by
  rw [TaskPage.next_field]
  split <;> rfl

theorem prev_field_keeps_mode (p : TaskPage) :
    p.prev_field.input_mode = p.input_mode := by
  rw [TaskPage.prev_field]
  split <;> rfl

theorem add_char_keeps_mode (p : TaskPage) (c : Char) :
    (p.add_char c).input_mode = p.input_mode := by
  unfold TaskPage.add_char
  split <;> rfl

theorem remove_char_keeps_mode (p : TaskPage) :
    p.remove_char.input_mode = p.input_mode := by
  unfold TaskPage.remove_char
  split <;> rfl

/-- Consistency of the delete page option with the current page: on
the `DeleteTask` page the option is present, so the `unwrap()` in the
event dispatch and in the rendering cannot panic. -/
def DeletePageConsistent (s : UIState) : Prop :=
  s.currentPage = .DeleteTask → s.deleteTaskPage.isSome = true

theorem deletePageConsistent_step {s s1 : UIState} {e : AppEvent}
    (h : DeletePageConsistent s) (hs : step s e = some s1) :
    DeletePageConsistent s1 := by
  intro h1
  by_cases hd : s.done
  · unfold step at hs
    rw [if_pos hd] at hs
    cases hs
    exact h h1
  · unfold step at hs
    rw [if_neg hd] at hs
    split at hs
    · -- AllTasks page
      unfold stepAllTasks at hs
      split at hs
      any_goals (cases hs; simp_all; done)
      any_goals (obtain ⟨hpg, hdt, hdn, hap, hmz⟩ := seedFromSelection_frame hs;
                 simp_all; done)
      any_goals ((split at hs <;> (cases hs; simp_all)); done)
    · -- DeleteTask page
      split at hs
      · -- no page object present: models the panic
        cases hs
      · rename_i d heq
        unfold stepDelete stepDeleteMode at hs
        split at hs
        all_goals split at hs
        any_goals (cases hs; simp_all; done)
        any_goals (cases hs;
                   rcases handleDeleteSave_frame s d with
                     ⟨⟨hpg, hdt0⟩ | ⟨hpg, hdt⟩, _⟩ <;>
                     simp_all; done)
    · -- NewTask page
      unfold stepForm stepFormMode at hs
      split at hs
      all_goals split at hs
      any_goals (cases hs; simp_all; done)
      any_goals (cases hs;
                 rcases handleTaskSave_frame s with ⟨hpg | hpg, hdt, _⟩ <;> simp_all;
                 done)
    · -- EditTask page
      unfold stepForm stepFormMode at hs
      split at hs
      all_goals split at hs
      any_goals (cases hs; simp_all; done)
      any_goals (cases hs;
                 rcases handleTaskSave_frame s with ⟨hpg | hpg, hdt, _⟩ <;> simp_all;
                 done)

/-- C10: in every state reachable by the event loop, if the current
page is `DeleteTask` then the delete page option is present, so the
`unwrap()` of that option during event dispatch (`mod.rs` line 146)
and rendering (`mod.rs` line 287) never panics. -/
theorem delete_page_option_invariant (a : App) (s : UIState)
    (h : Reachable a s) :
    s.currentPage = .DeleteTask → s.deleteTaskPage.isSome = true := by
  induction h with
  | init => intro h1; cases h1
  | next _ hs ih => exact deletePageConsistent_step ih hs

theorem delete_page_option_invariant_witness :
    stateDelA.deleteTaskPage.isSome = true :=
  delete_page_option_invariant appA stateDelA
    (@Reachable.next appA (initState appA) stateDelA AppEvent.deleteTask
      Reachable.init rfl) rfl

theorem seed_keeps_modes {s : UIState} {atp : AllTasksPage} {s1 : UIState}
    (htp : s.taskPage.input_mode = .Normal ∨ s.taskPage.input_mode = .Insert)
    (hdt : ∀ d, s.deleteTaskPage = some d →
      d.input_mode = .Normal ∨ d.input_mode = .Insert)
    (h : seedFromSelection s atp = some s1) :
    (s1.taskPage.input_mode = .Normal ∨ s1.taskPage.input_mode = .Insert) ∧
    (∀ d, s1.deleteTaskPage = some d →
      d.input_mode = .Normal ∨ d.input_mode = .Insert) := by
  obtain ⟨hpg, hdtq, hdn, hap, hmz⟩ := seedFromSelection_frame h
  constructor
  · rcases hmz with hm | hm
    · rw [hm]
      exact htp
    · exact Or.inl hm
  · rw [hdtq]
    exact hdt

theorem modesNI_step {s s1 : UIState} {e : AppEvent}
    (htp : s.taskPage.input_mode = .Normal ∨ s.taskPage.input_mode = .Insert)
    (hdt : ∀ d, s.deleteTaskPage = some d →
      d.input_mode = .Normal ∨ d.input_mode = .Insert)
    (hs : step s e = some s1) :
    (s1.taskPage.input_mode = .Normal ∨ s1.taskPage.input_mode = .Insert) ∧
    (∀ d, s1.deleteTaskPage = some d →
      d.input_mode = .Normal ∨ d.input_mode = .Insert) := by
  by_cases hd : s.done
  · unfold step at hs
    rw [if_pos hd] at hs
    cases hs
    exact ⟨htp, hdt⟩
  · unfold step at hs
    rw [if_neg hd] at hs
    split at hs
    · -- AllTasks page
      unfold stepAllTasks at hs
      split at hs
      any_goals (cases hs;
                 simp_all [DeleteTaskPage.new, TaskPage.new]; done)
      any_goals (exact seed_keeps_modes htp hdt hs)
      any_goals ((split at hs <;>
                  (cases hs; simp_all [DeleteTaskPage.new])); done)
    · -- DeleteTask page
      split at hs
      · cases hs
      · rename_i d heq
        have hd2 := hdt d heq
        unfold stepDelete stepDeleteMode at hs
        split at hs
        all_goals split at hs
        any_goals (cases hs;
                   simp_all [DeleteTaskPage.add_char, DeleteTaskPage.remove_char];
                   done)
        any_goals (cases hs;
                   rcases handleDeleteSave_frame s d with
                     ⟨⟨hpg, hdt0⟩ | ⟨hpg, hdtq⟩, htpq⟩ <;>
                     simp_all; done)
    · -- NewTask page
      unfold stepForm stepFormMode at hs
      split at hs
      all_goals split at hs
      any_goals (cases hs;
                 simp_all [next_field_keeps_mode, prev_field_keeps_mode,
                   add_char_keeps_mode, remove_char_keeps_mode]; done)
      any_goals (cases hs;
                 rcases handleTaskSave_frame s with ⟨hpg | hpg, hdtq, hmq⟩ <;>
                   simp_all; done)
    · -- EditTask page
      unfold stepForm stepFormMode at hs
      split at hs
      all_goals split at hs
      any_goals (cases hs;
                 simp_all [next_field_keeps_mode, prev_field_keeps_mode,
                   add_char_keeps_mode, remove_char_keeps_mode]; done)
      any_goals (cases hs;
                 rcases handleTaskSave_frame s with ⟨hpg | hpg, hdtq, hmq⟩ <;>
                   simp_all; done)

/-- C8 (amended): no action ever transitions into the Visual or
Command modes: every state reachable by the event loop has every live
input mode in `{Normal, Insert}`; and the two modes are inert as
specified: were a form or delete page in Visual or Command mode, the
enter-normal action would return it to `Normal` and every other key
event would leave the entire state unchanged. -/
theorem visual_command_modes :
    (∀ (a : App) (s : UIState), Reachable a s →
      (s.taskPage.input_mode = .Normal ∨ s.taskPage.input_mode = .Insert) ∧
      (∀ d, s.deleteTaskPage = some d →
        d.input_mode = .Normal ∨ d.input_mode = .Insert)) ∧
    (∀ (s : UIState) (e : AppEvent),
      s.done = false →
      (s.currentPage = .NewTask ∨ s.currentPage = .EditTask) →
      (s.taskPage.input_mode = .Visual ∨ s.taskPage.input_mode = .Command) →
      (e = .enterNormal →
        step s e =
          some { s with taskPage := { s.taskPage with input_mode := .Normal } }) ∧
      (e ≠ .enterNormal → step s e = some s)) ∧
    (∀ (s : UIState) (e : AppEvent) (d : DeleteTaskPage),
      s.done = false → s.currentPage = .DeleteTask → s.deleteTaskPage = some d →
      (d.input_mode = .Visual ∨ d.input_mode = .Command) →
      (e = .enterNormal →
        step s e =
          some { s with deleteTaskPage := some { d with input_mode := .Normal } }) ∧
      (e ≠ .enterNormal → step s e = some s)) := by
  refine ⟨?_, ?_, ?_⟩
  · intro a s hreach
    induction hreach with
    | init => exact ⟨Or.inl rfl, by intro d hd; cases hd⟩
    | next _ hs ih => exact modesNI_step ih.1 ih.2 hs
  · intro s e hdone hpage hmode
    constructor
    · rintro rfl
      rcases hpage with h | h <;> rcases hmode with hm | hm <;>
        simp [step, stepForm, stepFormMode, hdone, h, hm]
    · intro hne
      cases e <;> try (exact absurd rfl hne)
      all_goals
        rcases hpage with h | h <;> rcases hmode with hm | hm <;>
          simp [step, stepForm, stepFormMode, hdone, h, hm]
  · intro s e d hdone hpage hdtp hmode
    constructor
    · rintro rfl
      rcases hmode with hm | hm <;>
        simp [step, stepDelete, stepDeleteMode, hdone, hpage, hdtp, hm]
    · intro hne
      cases e <;> try (exact absurd rfl hne)
      all_goals
        rcases hmode with hm | hm <;>
          simp [step, stepDelete, stepDeleteMode, hdone, hpage, hdtp, hm]

def stateFormN : UIState :=
  { initState appA with currentPage := UIPage.NewTask }

/-- C8 is refuted in its reachability part: from a form page in
`Normal` mode no key event at all produces the Visual or Command
input mode — the dedicated actions the claim requires do not exist in
the dispatch. -/
theorem visual_command_reachability_counterexample :
    ¬ ∃ (e : AppEvent) (s1 : UIState),
        step stateFormN e = some s1 ∧
        (s1.taskPage.input_mode = .Visual ∨ s1.taskPage.input_mode = .Command) := by
  rintro ⟨e, s1, hstep, hmode⟩
  cases e <;>
    (injection hstep with h2; subst h2; revert hmode; decide)

def stateFormV : UIState :=
  { initState appA with
      currentPage := UIPage.NewTask
      taskPage := { TaskPage.new with input_mode := .Visual } }

theorem visual_command_modes_witness :
    step stateFormV .down = some stateFormV :=
  (visual_command_modes.2.1 stateFormV .down rfl (Or.inl rfl)
    (Or.inl rfl)).2 (by decide)

end Gyst
